import Mathlib

/-!
Verification of the discovery engine of src/src/network/discovery.c.

The engine is embedded shallowly: the external world (ping output, snmpwalk
output, kernel tables, the default-route lookup) is modelled as an oracle
passed to each function, and every C function the claims mention is
translated into an executable Lean definition that mirrors its control flow.
Line numbers in the doc comments refer to src/src/network/discovery.c.
-/

set_option maxRecDepth 8000

namespace NetworkDiscovery

/-- MAX_DISCOVERED_HOSTS (line 27). -/
def MAX_DISCOVERED_HOSTS : ℕ := 1024

/-- MAX_HOPS (line 29). -/
def MAX_HOPS : ℕ := 30

/-- The character test of validate_ip_string (lines 52-55): a character is
acceptable when it is a decimal digit or a dot. -/
def ipChar (c : Char) : Bool :=
  (decide ('0' ≤ c) && decide (c ≤ '9')) || c == '.'

/-- validate_ip_string (lines 46-58): accepts exactly the non-empty strings
all of whose characters are digits or dots.  (The NULL case of the C
function is not representable; the model works on strings.) -/
def validate_ip_string (s : String) : Bool :=
  !(s == "") && s.data.all ipChar

/-- The character class of validate_community_string (lines 1031-1036):
alphanumeric, underscore or hyphen. -/
def communityChar (c : Char) : Bool :=
  (decide ('a' ≤ c) && decide (c ≤ 'z')) ||
    (decide ('A' ≤ c) && decide (c ≤ 'Z')) ||
    (decide ('0' ≤ c) && decide (c ≤ '9')) || c == '_' || c == '-'

/-- validate_community_string (lines 1027-1038). -/
def validate_community_string (s : String) : Bool :=
  !(s == "") && s.data.all communityChar

/-- Split a character list at the dots, the way sscanf("%d.%d.%d.%d") sees
the fields of a digit-and-dot string. -/
def dotFields (cs : List Char) : List (List Char) :=
  cs.foldr
    (fun c acc =>
      if c == '.' then [] :: acc else (c :: acc.headD []) :: acc.tail)
    [[]]

/-- Numeric value of one sscanf "%d" field; `none` when the field is empty
or contains a non-digit, where "%d" would fail to match. -/
def digitsToNat (cs : List Char) : Option ℕ :=
  if cs ≠ [] ∧ cs.all (fun c => decide ('0' ≤ c) && decide (c ≤ '9')) then
    some (cs.foldl (fun n c => n * 10 + (c.toNat - 48)) 0)
  else none

/-- parse_ip (lines 156-159), sscanf(ip, "%d.%d.%d.%d", octets).  `some` is
returned when all four fields match.  `none` models a match of fewer than
four fields; the C code then reads uninitialized octets (undefined
behavior), so theorems relying on the parsed octets restrict attention to
inputs on which the parse succeeds. -/
def parse_ip (s : String) : Option (ℕ × ℕ × ℕ × ℕ) :=
  match dotFields s.data with
  | a :: b :: c :: d :: _ =>
    match digitsToNat a, digitsToNat b, digitsToNat c, digitsToNat d with
    | some x, some y, some z, some w => some (x, y, z, w)
    | _, _, _, _ => none
  | _ => none

/-- snprintf(buf, .., "%d.%d.%d.%d", a, b, c, d). -/
def renderIp (q : ℕ × ℕ × ℕ × ℕ) : String :=
  toString q.1 ++ "." ++ toString q.2.1 ++ "." ++ toString q.2.2.1 ++ "." ++
    toString q.2.2.2

/-- The C cast (int)x, truncation toward zero, on exact rationals. -/
def c_trunc (q : ℚ) : ℤ := if q < 0 then -⌊-q⌋ else ⌊q⌋

/-- Outcome of ping_host_system, together with the fact whether the external
ping command was reached (the popen call, line 79). -/
structure PingResult where
  issued_cmd : Bool
  response_time : ℤ
deriving DecidableEq

/-- ping_host_system (lines 64-99).  The external ping is an oracle:
`env ip = some t` means the command output contained "time=t" with parsed
value t milliseconds (modelled as an exact rational), `none` means no such
line appeared (unreachable host, timeout, or popen failure).  With a parsed
time the code computes (int)(t + 0.5) and floors the result at 1; in every
other case it returns -1. -/
def ping_host_system (env : String → Option ℚ) (ip : String) : PingResult :=
  if validate_ip_string ip = false then ⟨false, -1⟩
  else
    match env ip with
    | none => ⟨true, -1⟩
    | some t =>
      let r := c_trunc (t + 1 / 2)
      ⟨true, if r < 1 then 1 else r⟩

/-- discovered_host_t (lines 32-36). -/
structure discovered_host_t where
  ip_address : String
  response_time_ms : ℤ
  is_reachable : Bool
deriving DecidableEq

/-- The registry insertion used by every collector that consults the whole
registry before inserting (e.g. lines 1322-1339, 1366-1380): nothing happens
when the registry is full or the address is already present; otherwise the
address is appended with response time 0 and the reachable flag set.  (The C
code checks presence before the capacity guard at some call sites; the final
registry is the same either way.) -/
def registryAdd (reg : List discovered_host_t) (ip : String) :
    List discovered_host_t :=
  if MAX_DISCOVERED_HOSTS ≤ reg.length then reg
  else if reg.any (fun h => h.ip_address == ip) then reg
  else reg ++ [⟨ip, 0, true⟩]

/-- Candidate count of scan_subnet (lines 482-492): 2^(32-prefixLen) - 2,
capped at 254.  For prefixLen ≤ 32 the truncated natural subtraction agrees
with the C int arithmetic combined with the max_hosts <= 0 early return
(which yields an empty scan exactly when this value is 0). -/
def scanMaxHosts (prefixLen : ℕ) : ℕ :=
  min (2 ^ (32 - prefixLen) - 2) 254

/-- Candidate octets of one scan_subnet iteration (lines 499-510). -/
def scanTarget (net : ℕ × ℕ × ℕ × ℕ) (hostBits i : ℕ) : ℕ × ℕ × ℕ × ℕ :=
  if 8 < hostBits then
    (net.1, net.2.1, net.2.2.1 + (i - 1) / 256, (i - 1) % 256 + 1)
  else
    (net.1, net.2.1, net.2.2.1, i)

/-- The candidate list scan_subnet probes, in loop order i = 1..max_hosts. -/
def scan_candidates (net : ℕ × ℕ × ℕ × ℕ) (prefixLen : ℕ) :
    List (ℕ × ℕ × ℕ × ℕ) :=
  (List.range (scanMaxHosts prefixLen)).map
    (fun k => scanTarget net (32 - prefixLen) (k + 1))

/-- One loop body of scan_subnet (lines 497-544) acting on the registry:
ping the rendered candidate, insert when reachable and not yet present.
The loop condition discovered_count < MAX_DISCOVERED_HOSTS stops the C loop;
once the registry is full the body adds nothing, so modelling the stop as a
skip yields the same final registry. -/
def scanStep (env : String → Option ℚ) (reg : List discovered_host_t)
    (target : ℕ × ℕ × ℕ × ℕ) : List discovered_host_t :=
  if MAX_DISCOVERED_HOSTS ≤ reg.length then reg
  else
    let tip := renderIp target
    let rt := (ping_host_system env tip).response_time
    if 0 < rt then
      if reg.any (fun h => h.ip_address == tip) then reg
      else reg ++ [⟨tip, rt, true⟩]
    else reg

/-- scan_subnet (lines 474-547) as a transformer of the global registry. -/
def scan_subnet (env : String → Option ℚ) (reg : List discovered_host_t)
    (net : ℕ × ℕ × ℕ × ℕ) (prefixLen : ℕ) : List discovered_host_t :=
  (scan_candidates net prefixLen).foldl (scanStep env) reg

/-- Number of progress lines scan_subnet prints over a full sweep of
maxHosts candidates (lines 540-543): one line after every candidate i with
i % 50 == 0. -/
def scanProgressUpdates (maxHosts : ℕ) : ℕ :=
  (List.range maxHosts).countP (fun k => (k + 1) % 50 == 0)

/-- Progress step of discover_network (lines 229-230): max_hosts / 20,
floored at 1. -/
def networkProgressStep (maxHosts : ℕ) : ℕ :=
  max (maxHosts / 20) 1

/-- Number of progress marks discover_network prints over a full sweep
(lines 266-269): one mark after every candidate i with
i % progress_step == 0. -/
def networkProgressUpdates (maxHosts : ℕ) : ℕ :=
  (List.range maxHosts).countP
    (fun k => (k + 1) % networkProgressStep maxHosts == 0)

/-- strncmp(ip, "127.", 4) == 0 (line 1215). -/
def startsWith127 (s : String) : Bool :=
  match s.data with
  | '1' :: '2' :: '7' :: '.' :: _ => true
  | _ => false

/-- Loop body of discover_router_interfaces (lines 1205-1233) over one
"IpAddress:" token of the snmpwalk output: stop at max_ifaces entries,
require validate_ip_string, skip loopback 127.* addresses, deduplicate. -/
def ifaceStep (maxI : ℕ) (acc : List String) (tok : String) : List String :=
  if maxI ≤ acc.length then acc
  else if validate_ip_string tok = false then acc
  else if startsWith127 tok then acc
  else if tok ∈ acc then acc
  else acc ++ [tok]

/-- discover_router_interfaces (lines 1182-1237).  `toks` lists the address
tokens of the snmpwalk response; the Bool records whether the query command
was issued (false when input validation rejects the router address or the
community string, lines 1191-1193). -/
def discover_router_interfaces (router community : String)
    (toks : List String) (maxI : ℕ) : Bool × List String :=
  if validate_ip_string router && validate_community_string community then
    (true, toks.foldl (ifaceStep maxI) [])
  else (false, [])

/-- The private-range test of discover_nexthop_routers (lines 1147-1149). -/
def is_private (a b : ℕ) : Bool :=
  a == 10 || (a == 172 && decide (16 ≤ b) && decide (b ≤ 31)) ||
    (a == 192 && b == 168)

/-- Loop body of discover_nexthop_routers (lines 1132-1171): stop at
max_nexthops, require validate_ip_string, skip 0.0.0.0, keep only parsed
private addresses, skip the queried router itself, deduplicate.  In the
`none` parse case the C code tests uninitialized octets (undefined
behavior); the model skips the token there, and the theorems about this
function assume response tokens on which the parse succeeds. -/
def nexthopStep (router : String) (maxN : ℕ) (acc : List String)
    (tok : String) : List String :=
  if maxN ≤ acc.length then acc
  else if validate_ip_string tok = false then acc
  else if tok == "0.0.0.0" then acc
  else
    match parse_ip tok with
    | some (a, b, _, _) =>
      if is_private a b = false then acc
      else if tok == router then acc
      else if tok ∈ acc then acc
      else acc ++ [tok]
    | none => acc

/-- discover_nexthop_routers (lines 1109-1175). -/
def discover_nexthop_routers (router community : String)
    (toks : List String) (maxN : ℕ) : Bool × List String :=
  if validate_ip_string router && validate_community_string community then
    (true, toks.foldl (nexthopStep router maxN) [])
  else (false, [])

/-- Registry effect of one "IpAddress:" token inside try_snmp_community
(lines 1070-1098): validated tokens go through the dedup-and-cap insert. -/
def snmpArpStep (reg : List discovered_host_t) (tok : String) :
    List discovered_host_t :=
  if validate_ip_string tok then registryAdd reg tok else reg

/-- try_snmp_community (lines 1044-1102): whether the query was issued, and
the new registry.  (The C return value is the number of hosts added.) -/
def try_snmp_community (router community : String) (toks : List String)
    (reg : List discovered_host_t) : Bool × List discovered_host_t :=
  if validate_ip_string router && validate_community_string community then
    (true, toks.foldl snmpArpStep reg)
  else (false, reg)

/-- The community validation inlined in discover_snmp_arp (lines 743-749);
unlike validate_community_string it accepts the empty string. -/
def snmpArpCommunityOk (s : String) : Bool :=
  s.data.all communityChar

/-- discover_snmp_arp (lines 729-814): (command issued, return value, new
registry).  It returns -1 without issuing the query when validation fails,
and otherwise the number of hosts added. -/
def discover_snmp_arp (router community : String) (toks : List String)
    (reg : List discovered_host_t) : Bool × ℤ × List discovered_host_t :=
  if validate_ip_string router = false then (false, -1, reg)
  else if snmpArpCommunityOk community = false then (false, -1, reg)
  else
    let reg2 := toks.foldl snmpArpStep reg
    (true, (reg2.length : ℤ) - (reg.length : ℤ), reg2)

/-- Environment of one discover_automatic run: everything the external world
feeds it.  gateway_raw is the first output line of the default-route command
with the newline stripped (`none`: no output or popen failure).  The three
response functions list the "IpAddress:" tokens snmpwalk prints per
(router, community) pair.  local_arp pairs an extracted neighbour address
token with the outcome of the state/mac test of the corresponding parse
branch (lines 1424-1425 and 1444-1445).  conns lists remote-address tokens
of established connections after the port has been split off (line 1481). -/
structure AutoEnv where
  gateway_raw : Option String
  iface_resp : String → String → List String
  nexthop_resp : String → String → List String
  arp_resp : String → String → List String
  local_arp : List (String × Bool)
  conns : List String

/-- get_default_gateway (lines 1003-1022): the raw line is accepted only
when it passes validate_ip_string. -/
def get_default_gateway (env : AutoEnv) : Option String :=
  match env.gateway_raw with
  | some s => if validate_ip_string s then some s else none
  | none => none

/-- The candidate community strings of discover_automatic (line 1259). -/
def communities : List String :=
  ["abc", "public", "private", "community", "cisco"]

/-- State of the router loop of discover_automatic (lines 1250-1400).
queried_log records, in order, the router addresses already processed by the
loop. -/
structure WalkState where
  routers_to_query : List String
  routers_queried : ℕ
  reg : List discovered_host_t
  snmp_success : Bool
  queried_log : List String

/-- Frontier-and-registry effect of one next-hop (lines 1349-1381): append
to routers_to_query when not yet listed and below MAX_HOPS, and insert into
the registry through the dedup-and-cap check. -/
def nexthopAccum (p : List String × List discovered_host_t) (nh : String) :
    List String × List discovered_host_t :=
  (if nh ∈ p.1 ∨ MAX_HOPS ≤ p.1.length then p.1 else p.1 ++ [nh],
   registryAdd p.2 nh)

/-- One iteration of the router loop (lines 1297-1400): try the community
strings in order until one yields a non-empty interface list; on success
record the interfaces, the next-hops (also expanding the frontier) and the
router's ARP table; in every case advance to the next router. -/
def walkStep (env : AutoEnv) (st : WalkState) : WalkState :=
  let router := st.routers_to_query.getD st.routers_queried ""
  match communities.find? (fun c =>
      !(discover_router_interfaces router c (env.iface_resp router c)
          MAX_HOPS).2.isEmpty) with
  | none =>
    { st with
      routers_queried := st.routers_queried + 1
      queried_log := st.queried_log ++ [router] }
  | some c =>
    let ifaces :=
      (discover_router_interfaces router c (env.iface_resp router c)
        MAX_HOPS).2
    let reg1 := ifaces.foldl registryAdd st.reg
    let nexthops :=
      (discover_nexthop_routers router c (env.nexthop_resp router c)
        MAX_HOPS).2
    let fr := nexthops.foldl nexthopAccum (st.routers_to_query, reg1)
    let reg3 := (try_snmp_community router c (env.arp_resp router c) fr.2).2
    { routers_to_query := fr.1
      routers_queried := st.routers_queried + 1
      reg := reg3
      snmp_success := true
      queried_log := st.queried_log ++ [router] }

/-- The while loop of discover_automatic (line 1297): iterate while routers
remain and the visit cap MAX_HOPS is not reached.  The fuel argument only
serves termination; since routers_queried grows by one per iteration, fuel
MAX_HOPS can never run out before the loop condition fails. -/
def walkLoop (env : AutoEnv) : ℕ → WalkState → WalkState
  | 0, st => st
  | fuel + 1, st =>
    if st.routers_queried < st.routers_to_query.length ∧
        st.routers_queried < MAX_HOPS then
      walkLoop env fuel (walkStep env st)
    else st

/-- The walk state discover_automatic starts from once a gateway is found
(lines 1281-1290): the frontier and the registry both seeded with the
gateway, nothing queried yet. -/
def walkInit (gw : String) : WalkState :=
  ⟨[gw], 0, [⟨gw, 0, true⟩], false, []⟩

/-- ARP-fallback insertion of discover_automatic (lines 1423-1462): an entry
contributes when its state/mac test passed and the address validates. -/
def localArpStep (reg : List discovered_host_t) (e : String × Bool) :
    List discovered_host_t :=
  if e.2 && validate_ip_string e.1 then registryAdd reg e.1 else reg

/-- The "::ffff:" strip of the connection scan (lines 1482-1483). -/
def stripV6MappedV4 (s : String) : String :=
  match s.data with
  | ':' :: ':' :: 'f' :: 'f' :: 'f' :: 'f' :: ':' :: rest => String.mk rest
  | _ => s

/-- Connection-scan insertion of discover_automatic (lines 1476-1504). -/
def connStep (reg : List discovered_host_t) (raw : String) :
    List discovered_host_t :=
  let ip := stripV6MappedV4 raw
  if validate_ip_string ip && !(ip == "127.0.0.1") then registryAdd reg ip
  else reg

/-- Steps 3 and 4 of discover_automatic, the code from the arp_fallback
label onward (lines 1410-1507). -/
def arpConnPhase (env : AutoEnv) (reg : List discovered_host_t) :
    List discovered_host_t :=
  env.conns.foldl connStep (env.local_arp.foldl localArpStep reg)

/-- discover_automatic (lines 1248-1544): the C return value (total_hosts),
the final registry, and the snmp_success flag.  When no gateway is detected
the router walk is skipped (goto arp_fallback, line 1276); otherwise the
gateway seeds the walk. -/
def discover_automatic (env : AutoEnv) :
    ℤ × List discovered_host_t × Bool :=
  match get_default_gateway env with
  | none =>
    let reg := arpConnPhase env []
    ((reg.length : ℤ), reg, false)
  | some gw =>
    let stF := walkLoop env MAX_HOPS (walkInit gw)
    let reg := arpConnPhase env stF.reg
    ((reg.length : ℤ), reg, stF.snmp_success)

/-- Environment of discover_network_quick: the resolved interface data
(local address, network address, netmask; `none` models the failure of
get_local_network_info) and the ping oracle. -/
structure QuickEnv where
  local_info : Option (String × String × String)
  ping : String → Option ℚ

/-- The fixed quick-scan target octets (lines 355-357). -/
def quick_targets : List ℕ :=
  [1, 2, 3, 4, 5, 6, 7, 8, 9, 10, 11, 12, 13, 14, 15, 16, 17, 18, 19, 20,
   100, 200, 254]

/-- Insertion as performed by discover_network_quick (lines 326-333, 342-349
and 376-383): a reachable host is appended without any registry lookup. -/
def quickAdd (penv : String → Option ℚ) (reg : List discovered_host_t)
    (ip : String) : List discovered_host_t :=
  let rt := (ping_host_system penv ip).response_time
  if 0 < rt then reg ++ [⟨ip, rt, true⟩] else reg

/-- One target-loop iteration of discover_network_quick (lines 360-387):
skip once the registry is full, skip the target equal to the local address,
otherwise ping and append on success. -/
def quickTargetStep (penv : String → Option ℚ) (net : ℕ × ℕ × ℕ × ℕ)
    (local_ip : String) (reg : List discovered_host_t) (t : ℕ) :
    List discovered_host_t :=
  if MAX_DISCOVERED_HOSTS ≤ reg.length then reg
  else
    let tip := renderIp (net.1, net.2.1, net.2.2.1, t)
    if tip == local_ip then reg else quickAdd penv reg tip

/-- discover_network_quick (lines 301-393): `none` when the interface lookup
fails (C return -1); otherwise the final registry after pinging localhost,
the local address and the fixed target list.  parse_ip always succeeds on
the resolver-produced network address, so the defaulted quad is never used
on real resolver output. -/
def discover_network_quick (env : QuickEnv) :
    Option (List discovered_host_t) :=
  match env.local_info with
  | none => none
  | some (local_ip, network_addr, _netmask) =>
    let net := (parse_ip network_addr).getD (0, 0, 0, 0)
    let reg1 := quickAdd env.ping [] "127.0.0.1"
    let reg2 := quickAdd env.ping reg1 local_ip
    some (quick_targets.foldl (quickTargetStep env.ping net local_ip) reg2)

/-- The 32-bit value of a dotted quad. -/
def natOfQuad (q : ℕ × ℕ × ℕ × ℕ) : ℕ :=
  ((q.1 * 256 + q.2.1) * 256 + q.2.2.1) * 256 + q.2.2.2

/-- The dotted quad of a 32-bit value. -/
def quadOfNat (n : ℕ) : ℕ × ℕ × ℕ × ℕ :=
  (n / 16777216 % 256, n / 65536 % 256, n / 256 % 256, n % 256)

/-- The broadcast address of the subnet net/prefixLen: the network value
with every host bit set to one. -/
def broadcastQuad (net : ℕ × ℕ × ℕ × ℕ) (prefixLen : ℕ) : ℕ × ℕ × ℕ × ℕ :=
  quadOfNat (natOfQuad net + 2 ^ (32 - prefixLen) - 1)

/-- A canonical dotted-quad address string: it parses to a quad of octets at
most 255 of which it is the rendering. -/
def wellFormedQuadStr (s : String) : Prop :=
  ∃ a b c d : ℕ, parse_ip s = some (a, b, c, d) ∧
    a ≤ 255 ∧ b ≤ 255 ∧ c ≤ 255 ∧ d ≤ 255 ∧ s = renderIp (a, b, c, d)

/-- The combined registry invariant threaded through the automatic run:
every entry validates, addresses are pairwise distinct, and the size stays
within MAX_DISCOVERED_HOSTS. -/
def RegInv (reg : List discovered_host_t) : Prop :=
  (∀ h ∈ reg, validate_ip_string h.ip_address = true) ∧
    (reg.map (fun h => h.ip_address)).Nodup ∧
    reg.length ≤ MAX_DISCOVERED_HOSTS

/-- An environment in which every external query yields nothing. -/
def emptyAutoEnv : AutoEnv :=
  ⟨none, fun _ _ => [], fun _ _ => [], fun _ _ => [], [], []⟩

/-- A small demonstration environment: a gateway answering under the first
community with one interface and two advertised next-hops, one of them
public. -/
def walkDemoEnv : AutoEnv :=
  ⟨some "192.168.0.1", fun _ _ => ["192.168.5.1"],
   fun _ _ => ["10.0.0.7", "8.8.8.8"], fun _ _ => [], [], []⟩

/-- Ping oracle under which exactly 127.0.0.1 answers (in 1.5 ms). -/
def quickCexPing : String → Option ℚ :=
  fun ip => if ip == "127.0.0.1" then some (3 / 2) else none

/-- A quick-scan environment whose resolved local address is 127.0.0.1
(a non-loopback-named interface carrying the loopback address). -/
def quickCexEnv : QuickEnv :=
  ⟨some ("127.0.0.1", "10.0.0.0", "255.255.255.0"), quickCexPing⟩

/-- The claims' reading of "an address in 10/8, 172.16/12 or 192.168/16":
a canonical dotted-quad string whose first octets lie in a private range. -/
def privateAddr (s : String) : Prop :=
  ∃ a b c d : ℕ, parse_ip s = some (a, b, c, d) ∧ s = renderIp (a, b, c, d) ∧
    a ≤ 255 ∧ b ≤ 255 ∧ c ≤ 255 ∧ d ≤ 255 ∧
    (a = 10 ∨ (a = 172 ∧ 16 ≤ b ∧ b ≤ 31) ∨ (a = 192 ∧ b = 168))

/-- Decimal value of a digit string; the left inverse of Nat.repr used to
prove the dotted-quad rendering injective. -/
def decimalVal (cs : List Char) : ℕ :=
  cs.foldl (fun a c => a * 10 + (c.toNat - 48)) 0

/-- The bit-scan loop of get_host_bits (lines 172-177): count the trailing
zero bits of the mask value, capped at 32.  The C test (mask & test) with
test = 2^hb is the hb-th binary digit; the fuel equals 32 - hb, mirroring
the host_bits < 32 cap. -/
def ghbLoop (m : ℕ) : ℕ → ℕ → ℕ
  | 0, hb => hb
  | fuel + 1, hb => if m / 2 ^ hb % 2 = 0 then ghbLoop m fuel (hb + 1) else hb

/-- get_host_bits (lines 164-180). -/
def get_host_bits (mask : ℕ × ℕ × ℕ × ℕ) : ℕ :=
  ghbLoop (natOfQuad mask) 32 0

/-- Candidate count of discover_network (lines 213-220): 2^host_bits - 2,
capped at 254; the truncated natural subtraction matches the C int
arithmetic, a value ≤ 0 giving an empty sweep either way. -/
def networkMaxHosts (hostBits : ℕ) : ℕ :=
  min (2 ^ hostBits - 2) 254

/-- Candidate octets of one discover_network iteration (lines 237-247);
unlike scan_subnet, the final octet starts from net & mask. -/
def networkTarget (net mask : ℕ × ℕ × ℕ × ℕ) (hostBits i : ℕ) :
    ℕ × ℕ × ℕ × ℕ :=
  if 8 < hostBits then
    (net.1, net.2.1, net.2.2.1 + (i - 1) / 256,
      (net.2.2.2 &&& mask.2.2.2) + (i - 1) % 256 + 1)
  else
    (net.1, net.2.1, net.2.2.1, (net.2.2.2 &&& mask.2.2.2) + i)

/-- The candidate list discover_network probes, in loop order
i = 1..max_hosts. -/
def network_candidates (net mask : ℕ × ℕ × ℕ × ℕ) :
    List (ℕ × ℕ × ℕ × ℕ) :=
  (List.range (networkMaxHosts (get_host_bits mask))).map
    (fun k => networkTarget net mask (get_host_bits mask) (k + 1))

/-- One loop body of discover_network (lines 233-270) on the registry: ping
the rendered candidate and append on success, with NO dedup check (the loop
condition supplies only the capacity stop). -/
def networkStep (penv : String → Option ℚ) (reg : List discovered_host_t)
    (target : ℕ × ℕ × ℕ × ℕ) : List discovered_host_t :=
  if MAX_DISCOVERED_HOSTS ≤ reg.length then reg
  else
    let tip := renderIp target
    let rt := (ping_host_system penv tip).response_time
    if 0 < rt then reg ++ [⟨tip, rt, true⟩] else reg

/-- discover_network (lines 186-296): `none` models the interface-lookup
failure (C return -1); otherwise the registry of a fresh run over the full
sweep.  parse_ip always succeeds on the resolver-produced addresses, so the
defaulted quads are never used on real resolver output. -/
def discover_network (penv : String → Option ℚ)
    (info : Option (String × String × String)) :
    Option (List discovered_host_t) :=
  match info with
  | none => none
  | some (_local_ip, network_addr, netmask) =>
    let net := (parse_ip network_addr).getD (0, 0, 0, 0)
    let mask := (parse_ip netmask).getD (0, 0, 0, 0)
    some ((network_candidates net mask).foldl (networkStep penv) [])

/-- One line of discover_arp_cache (lines 690-714): the extracted address
token paired with the outcome of its state/mac test; on acceptance the
entry is appended with NO registry lookup (the loop condition supplies only
the capacity stop). -/
def arpCacheStep (reg : List discovered_host_t) (e : String × Bool) :
    List discovered_host_t :=
  if MAX_DISCOVERED_HOSTS ≤ reg.length then reg
  else if e.2 && validate_ip_string e.1 then reg ++ [⟨e.1, 0, true⟩]
  else reg

/-- discover_arp_cache (lines 666-722): the registry a fresh run builds
from the neighbour-table lines. -/
def discover_arp_cache (entries : List (String × Bool)) :
    List discovered_host_t :=
  entries.foldl arpCacheStep []

/-- discover_netstat (lines 819-886): a fresh run over the remote-address
tokens of the established connections (after the port split), inserting
through the full-registry dedup check. -/
def discover_netstat (conns : List String) : List discovered_host_t :=
  conns.foldl connStep []

theorem foldl_inv_mem {α β : Type*} (f : α → β → α) (P : α → Prop)
    (R : β → Prop) :
    ∀ l : List β, (∀ x ∈ l, R x) → ∀ a : α, P a →
      (∀ x y, R y → P x → P (f x y)) → P (l.foldl f a) := by
  intro l
  induction l with
  | nil => exact fun _ a ha _ => ha
  | cons b t ih =>
    intro hl a ha hstep
    exact ih (fun x hx => hl x (List.mem_cons_of_mem _ hx)) (f a b)
      (hstep a b (hl b (List.mem_cons_self _ _)) ha) hstep

theorem foldl_extension {α β : Type*} (f : List α → β → List α)
    (hf : ∀ a b, f a b = a ∨ ∃ x, f a b = a ++ [x]) :
    ∀ (l : List β) (a : List α), ∃ rest, l.foldl f a = a ++ rest := by
  intro l
  induction l with
  | nil => exact fun a => ⟨[], by simp⟩
  | cons b t ih =>
    intro a
    obtain ⟨r, hr⟩ := ih (f a b)
    rcases hf a b with h | ⟨x, h⟩
    · exact ⟨r, by rw [List.foldl_cons, hr, h]⟩
    · exact ⟨[x] ++ r, by rw [List.foldl_cons, hr, h, List.append_assoc]⟩

theorem walkLoop_inv (env : AutoEnv) (P : WalkState → Prop)
    (hstep : ∀ st, st.routers_queried < st.routers_to_query.length →
      st.routers_queried < MAX_HOPS → P st → P (walkStep env st)) :
    ∀ fuel st, P st → P (walkLoop env fuel st) := by
  intro fuel
  induction fuel with
  | zero => exact fun st h => h
  | succ n ih =>
    intro st h
    rw [walkLoop]
    split
    · next hg => exact ih _ (hstep st hg.1 hg.2 h)
    · exact h

theorem validate_eq_true_iff (s : String) :
    validate_ip_string s = true ↔
      s ≠ "" ∧ ∀ c ∈ s.data, ('0' ≤ c ∧ c ≤ '9') ∨ c = '.' := by
  simp [validate_ip_string, ipChar, List.all_eq_true, and_congr_right_iff]

theorem validate_false_of_badchar (s : String)
    (h : ∃ c ∈ s.data, ¬ (('0' ≤ c ∧ c ≤ '9') ∨ c = '.')) :
    validate_ip_string s = false := by
  obtain ⟨c, hc, hbad⟩ := h
  by_contra hne
  have hv : validate_ip_string s = true := by
    cases hvv : validate_ip_string s
    · exact absurd hvv hne
    · rfl
  exact hbad (((validate_eq_true_iff s).1 hv).2 c hc)

theorem ping_invalid (env : String → Option ℚ) (ip : String)
    (h : validate_ip_string ip = false) :
    ping_host_system env ip = ⟨false, -1⟩ := by
  simp [ping_host_system, h]

theorem ping_pos_valid (env : String → Option ℚ) (ip : String)
    (h : 0 < (ping_host_system env ip).response_time) :
    validate_ip_string ip = true := by
  cases hv : validate_ip_string ip
  · rw [ping_invalid env ip hv] at h
    exact absurd h (by norm_num)
  · rfl

theorem any_ip_eq_iff (reg : List discovered_host_t) (ip : String) :
    reg.any (fun h => h.ip_address == ip) = true ↔
      ip ∈ reg.map (fun h => h.ip_address) := by
  simp [List.any_eq_true, List.mem_map]

theorem registryAdd_cases (reg : List discovered_host_t) (ip : String) :
    registryAdd reg ip = reg ∨
      (registryAdd reg ip = reg ++ [⟨ip, 0, true⟩] ∧
        reg.length < MAX_DISCOVERED_HOSTS ∧
        ip ∉ reg.map (fun h => h.ip_address)) := by
  unfold registryAdd
  split
  · exact Or.inl rfl
  · next h1 =>
    split
    · exact Or.inl rfl
    · next h2 =>
      refine Or.inr ⟨rfl, by omega, ?_⟩
      intro hmem
      exact h2 ((any_ip_eq_iff reg ip).2 hmem)

theorem registryAdd_regInv (reg : List discovered_host_t) (ip : String)
    (hreg : RegInv reg) (hip : validate_ip_string ip = true) :
    RegInv (registryAdd reg ip) := by
  obtain ⟨hv, hn, hl⟩ := hreg
  rcases registryAdd_cases reg ip with h | ⟨h, hlen, hnm⟩
  · rw [h]; exact ⟨hv, hn, hl⟩
  · rw [h]
    refine ⟨?_, ?_, ?_⟩
    · intro x hx
      rcases List.mem_append.1 hx with h1 | h1
      · exact hv x h1
      · simp only [List.mem_singleton] at h1
        subst h1
        exact hip
    · rw [List.map_append]
      simp only [List.map_cons, List.map_nil]
      exact List.Nodup.append hn (List.nodup_singleton _)
        (by simpa [List.disjoint_singleton] using hnm)
    · simp only [List.length_append, List.length_singleton]
      omega

theorem registryAdd_nodup (reg : List discovered_host_t) (ip : String)
    (hn : (reg.map (fun h => h.ip_address)).Nodup) :
    ((registryAdd reg ip).map (fun h => h.ip_address)).Nodup := by
  rcases registryAdd_cases reg ip with h | ⟨h, _, hnm⟩
  · rw [h]; exact hn
  · rw [h, List.map_append]
    simp only [List.map_cons, List.map_nil]
    exact List.Nodup.append hn (List.nodup_singleton _)
      (by simpa [List.disjoint_singleton] using hnm)

theorem registryAdd_len_le (reg : List discovered_host_t) (ip : String)
    (hl : reg.length ≤ MAX_DISCOVERED_HOSTS) :
    (registryAdd reg ip).length ≤ MAX_DISCOVERED_HOSTS := by
  rcases registryAdd_cases reg ip with h | ⟨h, hlen, _⟩
  · rw [h]; exact hl
  · rw [h]
    simp only [List.length_append, List.length_singleton]
    omega

theorem registryAdd_full (reg : List discovered_host_t) (ip : String)
    (hl : reg.length = MAX_DISCOVERED_HOSTS) :
    registryAdd reg ip = reg := by
  unfold registryAdd
  rw [if_pos (le_of_eq hl.symm)]

theorem registryAdd_valid (reg : List discovered_host_t) (ip : String)
    (hv : ∀ h ∈ reg, validate_ip_string h.ip_address = true)
    (hip : validate_ip_string ip = true) :
    ∀ h ∈ registryAdd reg ip, validate_ip_string h.ip_address = true := by
  intro x hx
  rcases registryAdd_cases reg ip with h | ⟨h, _, _⟩
  · rw [h] at hx; exact hv x hx
  · rw [h] at hx
    rcases List.mem_append.1 hx with h1 | h1
    · exact hv x h1
    · simp only [List.mem_singleton] at h1
      subst h1
      exact hip

theorem is_private_iff (a b : ℕ) :
    is_private a b = true ↔
      a = 10 ∨ (a = 172 ∧ 16 ≤ b ∧ b ≤ 31) ∨ (a = 192 ∧ b = 168) := by
  simp [is_private, and_assoc, or_assoc]

theorem snmpArpStep_regInv (reg : List discovered_host_t) (tok : String)
    (h : RegInv reg) : RegInv (snmpArpStep reg tok) := by
  unfold snmpArpStep
  split
  · next hv => exact registryAdd_regInv reg tok h hv
  · exact h

theorem localArpStep_regInv (reg : List discovered_host_t) (e : String × Bool)
    (h : RegInv reg) : RegInv (localArpStep reg e) := by
  unfold localArpStep
  split
  · next hv =>
    exact registryAdd_regInv reg e.1 h (Bool.and_elim_right hv)
  · exact h

theorem connStep_regInv (reg : List discovered_host_t) (raw : String)
    (h : RegInv reg) : RegInv (connStep reg raw) := by
  unfold connStep
  dsimp only
  split
  · next hv =>
    exact registryAdd_regInv reg (stripV6MappedV4 raw) h
      (Bool.and_elim_left hv)
  · exact h

theorem scanStep_cases (env : String → Option ℚ)
    (reg : List discovered_host_t) (t : ℕ × ℕ × ℕ × ℕ) :
    scanStep env reg t = reg ∨
      (scanStep env reg t =
          reg ++ [⟨renderIp t,
            (ping_host_system env (renderIp t)).response_time, true⟩] ∧
        reg.length < MAX_DISCOVERED_HOSTS ∧
        renderIp t ∉ reg.map (fun h => h.ip_address) ∧
        0 < (ping_host_system env (renderIp t)).response_time) := by
  unfold scanStep
  split
  · exact Or.inl rfl
  · next h1 =>
    dsimp only
    split
    · next hrt =>
      split
      · exact Or.inl rfl
      · next hany =>
        refine Or.inr ⟨rfl, by omega, ?_, hrt⟩
        intro hmem
        exact hany ((any_ip_eq_iff reg _).2 hmem)
    · exact Or.inl rfl

theorem scanStep_regInv (env : String → Option ℚ)
    (reg : List discovered_host_t) (t : ℕ × ℕ × ℕ × ℕ)
    (h : RegInv reg) : RegInv (scanStep env reg t) := by
  obtain ⟨hv, hn, hl⟩ := h
  rcases scanStep_cases env reg t with heq | ⟨heq, hlen, hnm, hrt⟩
  · rw [heq]; exact ⟨hv, hn, hl⟩
  · rw [heq]
    refine ⟨?_, ?_, ?_⟩
    · intro x hx
      rcases List.mem_append.1 hx with h1 | h1
      · exact hv x h1
      · simp only [List.mem_singleton] at h1
        subst h1
        exact ping_pos_valid env _ hrt
    · rw [List.map_append]
      simp only [List.map_cons, List.map_nil]
      exact List.Nodup.append hn (List.nodup_singleton _)
        (by simpa [List.disjoint_singleton] using hnm)
    · simp only [List.length_append, List.length_singleton]
      omega

theorem ifaceStep_cases (m : ℕ) (acc : List String) (tok : String) :
    ifaceStep m acc tok = acc ∨
      (ifaceStep m acc tok = acc ++ [tok] ∧
        validate_ip_string tok = true ∧ tok ∉ acc ∧ acc.length < m) := by
  unfold ifaceStep
  split
  · exact Or.inl rfl
  · next h1 =>
    split
    · exact Or.inl rfl
    · next h2 =>
      split
      · exact Or.inl rfl
      · split
        · exact Or.inl rfl
        · next h4 =>
          refine Or.inr ⟨rfl, ?_, h4, by omega⟩
          cases hv : validate_ip_string tok
          · exact absurd hv h2
          · rfl

theorem nexthopStep_cases (router : String) (m : ℕ) (acc : List String)
    (tok : String) :
    nexthopStep router m acc tok = acc ∨
      (nexthopStep router m acc tok = acc ++ [tok] ∧
        validate_ip_string tok = true ∧ tok ≠ "0.0.0.0" ∧ tok ≠ router ∧
        (∃ a b c d : ℕ, parse_ip tok = some (a, b, c, d) ∧
          is_private a b = true) ∧
        tok ∉ acc ∧ acc.length < m) := by
  unfold nexthopStep
  split
  · exact Or.inl rfl
  · next h1 =>
    split
    · exact Or.inl rfl
    · next h2 =>
      split
      · exact Or.inl rfl
      · next h3 =>
        split
        · next a b c d hp =>
          split
          · exact Or.inl rfl
          · next h4 =>
            split
            · exact Or.inl rfl
            · next h5 =>
              split
              · exact Or.inl rfl
              · next h6 =>
                refine Or.inr ⟨rfl, ?_, ?_, ?_, ⟨a, b, c, d, hp, ?_⟩, h6,
                  by omega⟩
                · cases hv : validate_ip_string tok
                  · exact absurd hv h2
                  · rfl
                · intro he
                  exact h3 (by simp [he])
                · intro he
                  exact h5 (by simp [he])
                · cases hpr : is_private a b
                  · exact absurd hpr h4
                  · rfl
        · exact Or.inl rfl

theorem iface_out_valid (router community : String) (toks : List String)
    (m : ℕ) :
    ∀ s ∈ (discover_router_interfaces router community toks m).2,
      validate_ip_string s = true := by
  unfold discover_router_interfaces
  split
  · refine foldl_inv_mem (ifaceStep m)
      (fun acc => ∀ s ∈ acc, validate_ip_string s = true) (fun _ => True)
      toks (fun _ _ => trivial) [] (by simp) ?_
    intro acc tok _ hacc s hs
    rcases ifaceStep_cases m acc tok with h | ⟨h, hval, _, _⟩
    · rw [h] at hs; exact hacc s hs
    · rw [h] at hs
      rcases List.mem_append.1 hs with h1 | h1
      · exact hacc s h1
      · simp only [List.mem_singleton] at h1
        subst h1
        exact hval
  · simp

theorem nexthop_out_valid (router community : String) (toks : List String)
    (m : ℕ) :
    ∀ s ∈ (discover_nexthop_routers router community toks m).2,
      validate_ip_string s = true := by
  unfold discover_nexthop_routers
  split
  · refine foldl_inv_mem (nexthopStep router m)
      (fun acc => ∀ s ∈ acc, validate_ip_string s = true) (fun _ => True)
      toks (fun _ _ => trivial) [] (by simp) ?_
    intro acc tok _ hacc s hs
    rcases nexthopStep_cases router m acc tok with h | ⟨h, hval, _⟩
    · rw [h] at hs; exact hacc s hs
    · rw [h] at hs
      rcases List.mem_append.1 hs with h1 | h1
      · exact hacc s h1
      · simp only [List.mem_singleton] at h1
        subst h1
        exact hval
  · simp

theorem nexthop_out_prop (router community : String) (toks : List String)
    (m : ℕ)
    (hR : ∀ t ∈ toks, validate_ip_string t = true → wellFormedQuadStr t) :
    ∀ s ∈ (discover_nexthop_routers router community toks m).2,
      s ≠ "0.0.0.0" ∧ s ≠ router ∧ privateAddr s := by
  unfold discover_nexthop_routers
  split
  · refine foldl_inv_mem (nexthopStep router m)
      (fun acc => ∀ s ∈ acc, s ≠ "0.0.0.0" ∧ s ≠ router ∧ privateAddr s)
      (fun t => validate_ip_string t = true → wellFormedQuadStr t)
      toks hR [] (by simp) ?_
    intro acc tok hRt hacc s hs
    rcases nexthopStep_cases router m acc tok with h |
      ⟨h, hval, h00, hrt, ⟨a, b, c, d, hp, hpriv⟩, _, _⟩
    · rw [h] at hs; exact hacc s hs
    · rw [h] at hs
      rcases List.mem_append.1 hs with h1 | h1
      · exact hacc s h1
      · simp only [List.mem_singleton] at h1
        subst h1
        refine ⟨h00, hrt, ?_⟩
        obtain ⟨a', b', c', d', hp', hb1, hb2, hb3, hb4, hrend⟩ := hRt hval
        rw [hp] at hp'
        obtain ⟨rfl, rfl, rfl, rfl⟩ :
            a = a' ∧ b = b' ∧ c = c' ∧ d = d' := by
          have := Option.some.inj hp'
          simp [Prod.ext_iff] at this
          exact ⟨this.1, this.2.1, this.2.2.1, this.2.2.2⟩
        exact ⟨a, b, c, d, hp, hrend, hb1, hb2, hb3, hb4,
          (is_private_iff a b).1 hpriv⟩
  · simp

theorem privateAddr_ne_8888 (s : String) (h : privateAddr s) :
    s ≠ "8.8.8.8" := by
  rintro rfl
  obtain ⟨a, b, c, d, hp, _, _, _, _, _, hd⟩ := h
  have h8 : parse_ip "8.8.8.8" = some (8, 8, 8, 8) := by decide
  rw [h8] at hp
  have hinj := Option.some.inj hp
  simp only [Prod.mk.injEq] at hinj
  obtain ⟨ha, hb, -, -⟩ := hinj
  rcases hd with h1 | ⟨h1, -⟩ | ⟨h1, -⟩ <;> omega

theorem try_snmp_regInv (router community : String) (toks : List String)
    (reg : List discovered_host_t) (h : RegInv reg) :
    RegInv (try_snmp_community router community toks reg).2 := by
  unfold try_snmp_community
  split
  · exact foldl_inv_mem snmpArpStep RegInv (fun _ => True) toks
      (fun _ _ => trivial) reg h
      (fun r tok _ hr => snmpArpStep_regInv r tok hr)
  · exact h

theorem nexthopAccum_cases (p : List String × List discovered_host_t)
    (nh : String) :
    ((nexthopAccum p nh).1 = p.1 ∨
      ((nexthopAccum p nh).1 = p.1 ++ [nh] ∧ nh ∉ p.1 ∧
        p.1.length < MAX_HOPS)) ∧
      (nexthopAccum p nh).2 = registryAdd p.2 nh := by
  refine ⟨?_, rfl⟩
  unfold nexthopAccum
  split
  · exact Or.inl rfl
  · next hc =>
    push_neg at hc
    exact Or.inr ⟨rfl, hc.1, by omega⟩

theorem nexthopAccum_fold_fst_ext (l : List String) :
    ∀ p : List String × List discovered_host_t,
      ∃ ext, (l.foldl nexthopAccum p).1 = p.1 ++ ext := by
  induction l with
  | nil => exact fun p => ⟨[], by simp⟩
  | cons nh t ih =>
    intro p
    obtain ⟨r, hr⟩ := ih (nexthopAccum p nh)
    rcases (nexthopAccum_cases p nh).1 with h | ⟨h, -, -⟩
    · exact ⟨r, by rw [List.foldl_cons, hr, h]⟩
    · exact ⟨[nh] ++ r, by rw [List.foldl_cons, hr, h, List.append_assoc]⟩

theorem nexthopAccum_fold_fst_nodup (l : List String)
    (p : List String × List discovered_host_t) (h : p.1.Nodup) :
    (l.foldl nexthopAccum p).1.Nodup := by
  refine foldl_inv_mem nexthopAccum (fun q => q.1.Nodup) (fun _ => True) l
    (fun _ _ => trivial) p h ?_
  intro q nh _ hq
  rcases (nexthopAccum_cases q nh).1 with heq | ⟨heq, hnm, -⟩
  · rw [heq]; exact hq
  · rw [heq]
    exact List.Nodup.append hq (List.nodup_singleton _)
      (by simpa [List.disjoint_singleton] using hnm)

theorem nexthopAccum_fold_fst_prop (Q : String → Prop) (l : List String)
    (hl : ∀ nh ∈ l, Q nh) (p : List String × List discovered_host_t)
    (hp : ∀ s ∈ p.1, Q s) : ∀ s ∈ (l.foldl nexthopAccum p).1, Q s := by
  refine foldl_inv_mem nexthopAccum (fun q => ∀ s ∈ q.1, Q s) Q l hl p hp ?_
  intro q nh hQ hq s hs
  rcases (nexthopAccum_cases q nh).1 with heq | ⟨heq, -, -⟩
  · rw [heq] at hs; exact hq s hs
  · rw [heq] at hs
    rcases List.mem_append.1 hs with h1 | h1
    · exact hq s h1
    · simp only [List.mem_singleton] at h1
      subst h1
      exact hQ

theorem nexthopAccum_fold_snd_regInv (l : List String)
    (hl : ∀ nh ∈ l, validate_ip_string nh = true)
    (p : List String × List discovered_host_t) (hp : RegInv p.2) :
    RegInv (l.foldl nexthopAccum p).2 := by
  refine foldl_inv_mem nexthopAccum (fun q => RegInv q.2)
    (fun nh => validate_ip_string nh = true) l hl p hp ?_
  intro q nh hv hq
  rw [(nexthopAccum_cases q nh).2]
  exact registryAdd_regInv q.2 nh hq hv

theorem walkStep_next (env : AutoEnv) (st : WalkState) :
    (walkStep env st).routers_queried = st.routers_queried + 1 ∧
      (walkStep env st).queried_log =
        st.queried_log ++ [st.routers_to_query.getD st.routers_queried ""] ∧
      ∃ ext, (walkStep env st).routers_to_query =
        st.routers_to_query ++ ext := by
  unfold walkStep
  dsimp only
  split
  · exact ⟨rfl, rfl, ⟨[], by simp⟩⟩
  · exact ⟨rfl, rfl, nexthopAccum_fold_fst_ext _ _⟩

theorem walkStep_regInv (env : AutoEnv) (st : WalkState)
    (h : RegInv st.reg) : RegInv (walkStep env st).reg := by
  unfold walkStep
  dsimp only
  split
  · exact h
  · apply try_snmp_regInv
    apply nexthopAccum_fold_snd_regInv _ (nexthop_out_valid _ _ _ _)
    exact foldl_inv_mem registryAdd RegInv
      (fun s => validate_ip_string s = true) _ (iface_out_valid _ _ _ _)
      _ h (fun r s hv hr => registryAdd_regInv r s hr hv)

theorem walkStep_frontier_nodup (env : AutoEnv) (st : WalkState)
    (h : st.routers_to_query.Nodup) :
    (walkStep env st).routers_to_query.Nodup := by
  unfold walkStep
  dsimp only
  split
  · exact h
  · exact nexthopAccum_fold_fst_nodup _ _ h

theorem walkStep_frontier_prop (env : AutoEnv) (st : WalkState) (gw : String)
    (hR : ∀ r c t, t ∈ env.nexthop_resp r c →
      validate_ip_string t = true → wellFormedQuadStr t)
    (h : ∀ s ∈ st.routers_to_query,
      s = gw ∨ (s ≠ "0.0.0.0" ∧ privateAddr s)) :
    ∀ s ∈ (walkStep env st).routers_to_query,
      s = gw ∨ (s ≠ "0.0.0.0" ∧ privateAddr s) := by
  unfold walkStep
  dsimp only
  split
  · exact h
  · next c heq =>
    refine nexthopAccum_fold_fst_prop _ _ ?_ _ h
    intro nh hnh
    have hout := nexthop_out_prop _ c _ MAX_HOPS (hR _ c) nh hnh
    exact Or.inr ⟨hout.1, hout.2.2⟩

theorem arpConnPhase_regInv (env : AutoEnv) (reg : List discovered_host_t)
    (h : RegInv reg) : RegInv (arpConnPhase env reg) := by
  unfold arpConnPhase
  refine foldl_inv_mem connStep RegInv (fun _ => True) env.conns
    (fun _ _ => trivial) _ ?_ (fun r raw _ hr => connStep_regInv r raw hr)
  exact foldl_inv_mem localArpStep RegInv (fun _ => True) env.local_arp
    (fun _ _ => trivial) reg h (fun r e _ hr => localArpStep_regInv r e hr)

theorem gateway_valid (env : AutoEnv) (gw : String)
    (h : get_default_gateway env = some gw) :
    validate_ip_string gw = true := by
  unfold get_default_gateway at h
  cases henv : env.gateway_raw with
  | none => rw [henv] at h; exact absurd h (by simp)
  | some s =>
    simp only [henv] at h
    split at h
    · next hv =>
      obtain rfl := Option.some.inj h
      exact hv
    · exact absurd h (by simp)

theorem regInv_nil : RegInv ([] : List discovered_host_t) :=
  ⟨by simp, by simp, by simp⟩

theorem walkInit_regInv (env : AutoEnv) (gw : String)
    (h : get_default_gateway env = some gw) : RegInv (walkInit gw).reg := by
  refine ⟨?_, by simp [walkInit], by simp [walkInit, MAX_DISCOVERED_HOSTS]⟩
  intro x hx
  simp only [walkInit, List.mem_singleton] at hx
  subst hx
  exact gateway_valid env gw h

theorem auto_regInv (env : AutoEnv) :
    RegInv (discover_automatic env).2.1 := by
  unfold discover_automatic
  cases hgw : get_default_gateway env with
  | none =>
    dsimp only
    exact arpConnPhase_regInv env [] regInv_nil
  | some gw =>
    dsimp only
    apply arpConnPhase_regInv
    exact walkLoop_inv env (fun st => RegInv st.reg)
      (fun st _ _ h => walkStep_regInv env st h) MAX_HOPS (walkInit gw)
      (walkInit_regInv env gw hgw)

theorem countP_mult (m : ℕ) :
    ∀ N : ℕ, (List.range N).countP (fun k => (k + 1) % m == 0) = N / m := by
  intro N
  induction N with
  | zero => simp
  | succ n ih =>
    rw [List.range_succ, List.countP_append, ih, Nat.succ_div]
    by_cases hd : m ∣ (n + 1)
    · have hmod : (n + 1) % m = 0 := Nat.dvd_iff_mod_eq_zero.1 hd
      simp [hmod, hd, List.countP_cons]
    · have hmod : (n + 1) % m ≠ 0 := fun hc =>
        hd (Nat.dvd_iff_mod_eq_zero.2 hc)
      simp [hmod, hd, List.countP_cons]

theorem ping_some_eq (env : String → Option ℚ) (ip : String) (t : ℚ)
    (ht : 0 ≤ t) (henv : env ip = some t)
    (hv : validate_ip_string ip = true) :
    (ping_host_system env ip).response_time = max 1 (round t) := by
  unfold ping_host_system
  rw [hv]
  simp only [Bool.true_eq_false, if_false, henv]
  have h1 : c_trunc (t + 1 / 2) = ⌊t + 1 / 2⌋ := by
    unfold c_trunc
    rw [if_neg]
    push_neg
    linarith
  have h2 : round t = ⌊t + 1 / 2⌋ := round_eq t
  have h3 : (0 : ℤ) ≤ ⌊t + 1 / 2⌋ := Int.floor_nonneg.2 (by linarith)
  rw [h1, ← h2]
  split <;> omega

theorem ping_none_eq (env : String → Option ℚ) (ip : String)
    (henv : env ip = none) (hv : validate_ip_string ip = true) :
    (ping_host_system env ip).response_time = -1 := by
  unfold ping_host_system
  rw [hv]
  simp only [Bool.true_eq_false, if_false, henv]

theorem scanStep_valid (env : String → Option ℚ)
    (reg : List discovered_host_t) (t : ℕ × ℕ × ℕ × ℕ)
    (hv : ∀ h ∈ reg, validate_ip_string h.ip_address = true) :
    ∀ h ∈ scanStep env reg t, validate_ip_string h.ip_address = true := by
  intro x hx
  rcases scanStep_cases env reg t with heq | ⟨heq, -, -, hrt⟩
  · rw [heq] at hx; exact hv x hx
  · rw [heq] at hx
    rcases List.mem_append.1 hx with h1 | h1
    · exact hv x h1
    · simp only [List.mem_singleton] at h1
      subst h1
      exact ping_pos_valid env _ hrt

theorem scanStep_nodup (env : String → Option ℚ)
    (reg : List discovered_host_t) (t : ℕ × ℕ × ℕ × ℕ)
    (hn : (reg.map (fun h => h.ip_address)).Nodup) :
    ((scanStep env reg t).map (fun h => h.ip_address)).Nodup := by
  rcases scanStep_cases env reg t with heq | ⟨heq, -, hnm, -⟩
  · rw [heq]; exact hn
  · rw [heq, List.map_append]
    simp only [List.map_cons, List.map_nil]
    exact List.Nodup.append hn (List.nodup_singleton _)
      (by simpa [List.disjoint_singleton] using hnm)

theorem scanStep_len_le (env : String → Option ℚ)
    (reg : List discovered_host_t) (t : ℕ × ℕ × ℕ × ℕ)
    (hl : reg.length ≤ MAX_DISCOVERED_HOSTS) :
    (scanStep env reg t).length ≤ MAX_DISCOVERED_HOSTS := by
  rcases scanStep_cases env reg t with heq | ⟨heq, hlen, -, -⟩
  · rw [heq]; exact hl
  · rw [heq]
    simp only [List.length_append, List.length_singleton]
    omega

theorem scanStep_full (env : String → Option ℚ)
    (reg : List discovered_host_t) (t : ℕ × ℕ × ℕ × ℕ)
    (hl : reg.length = MAX_DISCOVERED_HOSTS) : scanStep env reg t = reg := by
  unfold scanStep
  rw [if_pos (le_of_eq hl.symm)]

theorem scanMaxHosts_le_254 (p : ℕ) : scanMaxHosts p ≤ 254 :=
  min_le_right _ _

theorem scanTarget_fourth (net : ℕ × ℕ × ℕ × ℕ) (hb k : ℕ) (hk : k < 254) :
    (scanTarget net hb (k + 1)).2.2.2 = k + 1 := by
  unfold scanTarget
  split
  · show (k + 1 - 1) % 256 + 1 = k + 1
    omega
  · rfl

theorem scan_candidates_nodup (net : ℕ × ℕ × ℕ × ℕ) (p : ℕ) :
    (scan_candidates net p).Nodup := by
  unfold scan_candidates
  refine List.Nodup.map_on ?_ (List.nodup_range _)
  intro x hx y hy hxy
  rw [List.mem_range] at hx hy
  have hx' : x < 254 := lt_of_lt_of_le hx (scanMaxHosts_le_254 p)
  have hy' : y < 254 := lt_of_lt_of_le hy (scanMaxHosts_le_254 p)
  have h4 := congrArg (fun q : ℕ × ℕ × ℕ × ℕ => q.2.2.2) hxy
  simp only at h4
  rw [scanTarget_fourth net _ x hx', scanTarget_fourth net _ y hy'] at h4
  omega

theorem toDigitsCore_acc (fuel : ℕ) :
    ∀ (n : ℕ) (ds : List Char), n < fuel →
      Nat.toDigitsCore 10 fuel n ds = Nat.toDigitsCore 10 fuel n [] ++ ds := by
  induction fuel with
  | zero => intro n ds h; omega
  | succ f ih =>
    intro n ds h
    by_cases h0 : n / 10 = 0
    · simp [Nat.toDigitsCore, h0]
    · have hlt : n / 10 < f := by
        have h1 : 0 < n := by omega
        have := Nat.div_lt_self h1 (by norm_num : (1 : ℕ) < 10)
        omega
      simp only [Nat.toDigitsCore, h0, if_neg, if_false]
      rw [ih (n / 10) (Nat.digitChar (n % 10) :: ds) hlt,
        ih (n / 10) (Nat.digitChar (n % 10) :: []) hlt,
        List.append_assoc]
      rfl

theorem decimalVal_toDigitsCore (fuel : ℕ) :
    ∀ n : ℕ, n < fuel →
      decimalVal (Nat.toDigitsCore 10 fuel n []) = n := by
  induction fuel with
  | zero => intro n h; omega
  | succ f ih =>
    intro n h
    by_cases h0 : n / 10 = 0
    · have hn : n < 10 := by omega
      simp only [Nat.toDigitsCore, h0, if_pos]
      rw [Nat.mod_eq_of_lt hn]
      interval_cases n <;> decide
    · have hlt : n / 10 < f := by
        have h1 : 0 < n := by omega
        have := Nat.div_lt_self h1 (by norm_num : (1 : ℕ) < 10)
        omega
      simp only [Nat.toDigitsCore, h0, if_neg, if_false]
      rw [toDigitsCore_acc f (n / 10) [Nat.digitChar (n % 10)] hlt]
      unfold decimalVal
      rw [List.foldl_append]
      have hrec := ih (n / 10) hlt
      unfold decimalVal at hrec
      rw [hrec]
      have hd : (Nat.digitChar (n % 10)).toNat - 48 = n % 10 := by
        have h10 : n % 10 < 10 := Nat.mod_lt _ (by norm_num)
        set m := n % 10 with hm
        interval_cases m <;> decide
      simp only [List.foldl_cons, List.foldl_nil]
      omega

theorem natRepr_injective (x y : ℕ) (h : Nat.repr x = Nat.repr y) :
    x = y := by
  have hd : Nat.toDigits 10 x = Nat.toDigits 10 y := by
    have := congrArg String.data h
    simpa [Nat.repr, List.asString] using this
  have h1 : decimalVal (Nat.toDigits 10 x) = x :=
    decimalVal_toDigitsCore (x + 1) x (by omega)
  have h2 : decimalVal (Nat.toDigits 10 y) = y :=
    decimalVal_toDigitsCore (y + 1) y (by omega)
  rw [hd, h2] at h1
  exact h1.symm

theorem natToString_injective (x y : ℕ) (h : toString x = toString y) :
    x = y :=
  natRepr_injective x y h

theorem renderIp_last_inj (a b c x y : ℕ)
    (h : renderIp (a, b, c, x) = renderIp (a, b, c, y)) : x = y := by
  unfold renderIp at h
  have hdata := congrArg String.data h
  simp only [String.data_append] at hdata
  have hxy := List.append_cancel_left hdata
  exact natToString_injective x y (String.ext hxy)

theorem network_candidates_render_nodup (net mask : ℕ × ℕ × ℕ × ℕ) :
    ((network_candidates net mask).map renderIp).Nodup := by
  unfold network_candidates
  rw [List.map_map]
  refine List.Nodup.map_on ?_ (List.nodup_range _)
  intro i hi j hj hij
  rw [List.mem_range] at hi hj
  have hi' : i < 254 := lt_of_lt_of_le hi (min_le_right _ _)
  have hj' : j < 254 := lt_of_lt_of_le hj (min_le_right _ _)
  simp only [Function.comp] at hij
  unfold networkTarget at hij
  split at hij
  · have e1 : (i + 1 - 1) / 256 = 0 := by omega
    have e2 : (i + 1 - 1) % 256 = i := by omega
    have e3 : (j + 1 - 1) / 256 = 0 := by omega
    have e4 : (j + 1 - 1) % 256 = j := by omega
    rw [e1, e2, e3, e4] at hij
    simp only [Nat.add_zero] at hij
    have := renderIp_last_inj _ _ _ _ _ hij
    omega
  · have := renderIp_last_inj _ _ _ _ _ hij
    omega

theorem networkStep_cases (penv : String → Option ℚ)
    (reg : List discovered_host_t) (t : ℕ × ℕ × ℕ × ℕ) :
    networkStep penv reg t = reg ∨
      networkStep penv reg t = reg ++ [⟨renderIp t,
        (ping_host_system penv (renderIp t)).response_time, true⟩] := by
  unfold networkStep
  split
  · exact Or.inl rfl
  · dsimp only
    split
    · exact Or.inr rfl
    · exact Or.inl rfl

theorem networkFold_nodup (penv : String → Option ℚ) :
    ∀ (cl : List (ℕ × ℕ × ℕ × ℕ)) (reg0 : List discovered_host_t),
      ((cl.map renderIp).Nodup) →
      ((reg0.map (fun h => h.ip_address)).Nodup) →
      (∀ c ∈ cl, renderIp c ∉ reg0.map (fun h => h.ip_address)) →
      (((cl.foldl (networkStep penv) reg0).map
        (fun h => h.ip_address)).Nodup) := by
  intro cl
  induction cl with
  | nil => exact fun reg0 _ h0 _ => h0
  | cons c cl' ih =>
    intro reg0 hnd h0 habs
    rw [List.map_cons] at hnd
    obtain ⟨hcnot, hnd'⟩ := List.nodup_cons.1 hnd
    rw [List.foldl_cons]
    rcases networkStep_cases penv reg0 c with heq | heq
    · rw [heq]
      exact ih reg0 hnd' h0
        (fun c' hc' => habs c' (List.mem_cons_of_mem _ hc'))
    · rw [heq]
      refine ih _ hnd' ?_ ?_
      · rw [List.map_append]
        simp only [List.map_cons, List.map_nil]
        exact List.Nodup.append h0 (List.nodup_singleton _)
          (by simpa [List.disjoint_singleton] using
            habs c (List.mem_cons_self _ _))
      · intro c' hc'
        rw [List.map_append]
        simp only [List.map_cons, List.map_nil]
        intro hmem
        rcases List.mem_append.1 hmem with h1 | h1
        · exact habs c' (List.mem_cons_of_mem _ hc') h1
        · simp only [List.mem_singleton] at h1
          exact hcnot (h1 ▸ List.mem_map_of_mem renderIp hc')

theorem discover_network_nodup (penv : String → Option ℚ)
    (info : Option (String × String × String))
    (reg : List discovered_host_t)
    (h : discover_network penv info = some reg) :
    (reg.map (fun h => h.ip_address)).Nodup := by
  cases info with
  | none => exact absurd h (by simp [discover_network])
  | some tri =>
    obtain ⟨lip, naddr, nmask⟩ := tri
    unfold discover_network at h
    dsimp only at h
    obtain rfl := Option.some.inj h
    exact networkFold_nodup penv _ []
      (network_candidates_render_nodup _ _) (by simp) (by simp)

theorem connStep_nodup (reg : List discovered_host_t) (raw : String)
    (hn : (reg.map (fun h => h.ip_address)).Nodup) :
    ((connStep reg raw).map (fun h => h.ip_address)).Nodup := by
  unfold connStep
  dsimp only
  split
  · exact registryAdd_nodup reg _ hn
  · exact hn

theorem snmpArpStep_nodup (reg : List discovered_host_t) (tok : String)
    (hn : (reg.map (fun h => h.ip_address)).Nodup) :
    ((snmpArpStep reg tok).map (fun h => h.ip_address)).Nodup := by
  unfold snmpArpStep
  split
  · exact registryAdd_nodup reg tok hn
  · exact hn

theorem discover_netstat_nodup (conns : List String) :
    ((discover_netstat conns).map (fun h => h.ip_address)).Nodup := by
  unfold discover_netstat
  exact foldl_inv_mem connStep
    (fun r => (r.map (fun h => h.ip_address)).Nodup) (fun _ => True) conns
    (fun _ _ => trivial) [] (by simp)
    (fun r raw _ hr => connStep_nodup r raw hr)

theorem discover_snmp_arp_nodup (router community : String)
    (toks : List String) (reg : List discovered_host_t)
    (hn : (reg.map (fun h => h.ip_address)).Nodup) :
    (((discover_snmp_arp router community toks reg).2.2).map
      (fun h => h.ip_address)).Nodup := by
  unfold discover_snmp_arp
  split
  · exact hn
  · split
    · exact hn
    · dsimp only
      exact foldl_inv_mem snmpArpStep
        (fun r => (r.map (fun h => h.ip_address)).Nodup) (fun _ => True)
        toks (fun _ _ => trivial) reg hn
        (fun r tok _ hr => snmpArpStep_nodup r tok hr)

/-- Claim C10: validate_ip_string returns 1 exactly for the non-empty
strings whose every character is a decimal digit or a dot, and returns 0
otherwise; it enforces no dotted-quad structure, so "999.999.999.999",
"1..2" and "...." are accepted as valid addresses by the prober and by all
router query functions. -/
theorem C10_validator_charset :
    (∀ s : String, validate_ip_string s = true ↔
      (s ≠ "" ∧ ∀ c ∈ s.data, ('0' ≤ c ∧ c ≤ '9') ∨ c = '.')) ∧
    validate_ip_string "999.999.999.999" = true ∧
    validate_ip_string "1..2" = true ∧
    validate_ip_string "...." = true ∧
    (ping_host_system (fun _ => none) "999.999.999.999").issued_cmd = true ∧
    (discover_router_interfaces "1..2" "public" [] MAX_HOPS).1 = true ∧
    (discover_nexthop_routers "...." "public" [] MAX_HOPS).1 = true ∧
    (try_snmp_community "999.999.999.999" "public" [] []).1 = true ∧
    (discover_snmp_arp "1..2" "public" [] []).1 = true :=
  ⟨validate_eq_true_iff, by decide, by decide, by decide, by decide,
    by decide, by decide, by decide, by decide⟩

/-- Claim C7 (counterexample): on the maximal (capped) sweep of 254
candidates, scan_subnet emits exactly 5 progress updates (one per 50
candidates probed, at i = 50, 100, 150, 200, 250), not approximately 20
(one per roughly N/20 candidates, which would be about 21 updates). -/
theorem C7_progress_cadence_cex :
    scanProgressUpdates 254 = 5 ∧ ¬ 15 ≤ scanProgressUpdates 254 := by
  constructor
  · decide
  · decide

/-- Claim C7 (amended): scan_subnet reports one progress update per 50
candidates probed (⌊N/50⌋ updates over a sweep of N candidates, hence at
most 5 since N ≤ 254); the ≈20-update cadence belongs to discover_network,
which reports one mark per max(⌊N/20⌋, 1) candidates (21 marks for a
254-candidate sweep). -/
theorem C7_progress_cadence_amended :
    (∀ N : ℕ, scanProgressUpdates N = N / 50) ∧
    (∀ N : ℕ, networkProgressUpdates N = N / networkProgressStep N) ∧
    networkProgressUpdates 254 = 21 ∧ scanProgressUpdates 254 = 5 := by
  refine ⟨fun N => countP_mult 50 N, fun N => countP_mult _ N, ?_, ?_⟩
  · decide
  · decide

/-- Claim C6: discover_automatic never returns an error value: for every
environment its return value is the final registry's host count, which is
non-negative, and in an environment where no gateway is found and every
query yields nothing the result is 0; no single failed host or router query
aborts the run (there is no error return path at all). -/
theorem C6_no_error_result :
    (∀ env : AutoEnv,
      (discover_automatic env).1 = ((discover_automatic env).2.1.length : ℤ) ∧
        0 ≤ (discover_automatic env).1) ∧
    (discover_automatic emptyAutoEnv).1 = 0 := by
  constructor
  · intro env
    unfold discover_automatic
    cases get_default_gateway env <;> dsimp only <;>
      exact ⟨rfl, Int.natCast_nonneg _⟩
  · decide

/-- Claim C8: for a successful probe with measured time t ≥ 0 the recorded
latency is t rounded to the nearest millisecond (Lean's round, which is
⌊t + 1/2⌋, exactly the C computation (int)(t + 0.5) for t ≥ 0), floored at
1 when the rounding yields 0; a probe with no parsed time yields the
sentinel -1 rather than an error. -/
theorem C8_latency_rounding :
    (∀ (env : String → Option ℚ) (ip : String) (t : ℚ),
      0 ≤ t → env ip = some t → validate_ip_string ip = true →
      ((ping_host_system env ip).response_time = max 1 (round t) ∧
        (round t = 0 → (ping_host_system env ip).response_time = 1) ∧
        (1 ≤ round t → (ping_host_system env ip).response_time = round t))) ∧
    (∀ (env : String → Option ℚ) (ip : String),
      env ip = none → validate_ip_string ip = true →
      (ping_host_system env ip).response_time = -1) := by
  constructor
  · intro env ip t ht henv hv
    have h := ping_some_eq env ip t ht henv hv
    refine ⟨h, fun h0 => by rw [h, h0]; rfl, fun h1 => by rw [h]; omega⟩
  · exact ping_none_eq

/-- Witness for C8 at the concrete measured time 3/2 ms (rounds to 2 ms)
and at a probe with no response. -/
theorem C8_latency_rounding_witness :
    (0 : ℚ) ≤ 3 / 2 ∧
    (ping_host_system (fun _ => some (3 / 2)) "1.2.3.4").response_time =
      max 1 (round ((3 : ℚ) / 2)) ∧
    (ping_host_system (fun _ => none) "1.2.3.4").response_time = -1 := by
  refine ⟨by norm_num, ?_, ?_⟩
  · exact (C8_latency_rounding.1 (fun _ => some (3 / 2)) "1.2.3.4" (3 / 2)
      (by norm_num) rfl (by decide)).1
  · exact C8_latency_rounding.2 (fun _ => none) "1.2.3.4" rfl (by decide)

/-- Claim C9: every insertion keeps the registry within
MAX_DISCOVERED_HOSTS = 1024 entries, and once the registry holds 1024
entries every insertion attempt (dedup-checked insert, SNMP/scan steps) is
skipped, so scan_subnet and discover_automatic keep the registry capped. -/
theorem C9_registry_cap :
    (∀ (reg : List discovered_host_t) (ip : String),
        reg.length ≤ MAX_DISCOVERED_HOSTS →
        (registryAdd reg ip).length ≤ MAX_DISCOVERED_HOSTS) ∧
    (∀ (reg : List discovered_host_t) (ip : String),
        reg.length = MAX_DISCOVERED_HOSTS → registryAdd reg ip = reg) ∧
    (∀ (env : String → Option ℚ) (reg : List discovered_host_t)
        (t : ℕ × ℕ × ℕ × ℕ),
        reg.length = MAX_DISCOVERED_HOSTS → scanStep env reg t = reg) ∧
    (∀ (env : String → Option ℚ) (reg : List discovered_host_t)
        (net : ℕ × ℕ × ℕ × ℕ) (p : ℕ),
        reg.length ≤ MAX_DISCOVERED_HOSTS →
        (scan_subnet env reg net p).length ≤ MAX_DISCOVERED_HOSTS) ∧
    (∀ env : AutoEnv,
        ((discover_automatic env).2.1).length ≤ MAX_DISCOVERED_HOSTS) := by
  refine ⟨registryAdd_len_le, registryAdd_full, scanStep_full, ?_, ?_⟩
  · intro env reg net p hl
    unfold scan_subnet
    exact foldl_inv_mem (scanStep env)
      (fun r => r.length ≤ MAX_DISCOVERED_HOSTS) (fun _ => True) _
      (fun _ _ => trivial) reg hl (fun r t _ hr => scanStep_len_le env r t hr)
  · intro env
    exact (auto_regInv env).2.2

/-- Witness for C9: a full registry of 1024 entries rejects a fresh address,
and a small scan stays within the cap. -/
theorem C9_registry_cap_witness :
    registryAdd (List.replicate MAX_DISCOVERED_HOSTS
        (⟨"10.0.0.1", 0, true⟩ : discovered_host_t)) "10.0.0.2" =
      List.replicate MAX_DISCOVERED_HOSTS
        (⟨"10.0.0.1", 0, true⟩ : discovered_host_t) ∧
    (scan_subnet (fun _ => none) [] (10, 0, 0, 0) 30).length ≤
      MAX_DISCOVERED_HOSTS := by
  constructor
  · exact C9_registry_cap.2.1 _ "10.0.0.2" (by simp)
  · exact C9_registry_cap.2.2.2.1 (fun _ => none) [] (10, 0, 0, 0) 30
      (by simp)

/-- Claim C1: for every network address (a dotted quad with octets at most
255 whose host bits are zero, i.e. the network value divisible by
2^(32-prefix)) and prefix length in [16, 30], scan_subnet generates exactly
min(2^(32-prefix) - 2, 254) pairwise-distinct candidate addresses, none of
which is the network address or the broadcast address; in particular for
192.168.1.0/24 the candidates are exactly 192.168.1.1 .. 192.168.1.254. -/
theorem C1_subnet_enumerator :
    (∀ (net : ℕ × ℕ × ℕ × ℕ) (p : ℕ), 16 ≤ p → p ≤ 30 →
      net.1 ≤ 255 → net.2.1 ≤ 255 → net.2.2.1 ≤ 255 → net.2.2.2 ≤ 255 →
      2 ^ (32 - p) ∣ natOfQuad net →
      ((scan_candidates net p).length = min (2 ^ (32 - p) - 2) 254 ∧
        (scan_candidates net p).Nodup ∧
        net ∉ scan_candidates net p ∧
        broadcastQuad net p ∉ scan_candidates net p)) ∧
    scan_candidates (192, 168, 1, 0) 24 =
      (List.range 254).map (fun k => (192, 168, 1, k + 1)) := by
  constructor
  · rintro ⟨a, b, c, d⟩ p h16 h30 ha hb hc hd hdvd
    refine ⟨by simp [scan_candidates, scanMaxHosts],
      scan_candidates_nodup _ _, ?_, ?_⟩
    · intro hmem
      unfold scan_candidates at hmem
      rw [List.mem_map] at hmem
      obtain ⟨k, hkr, heq⟩ := hmem
      rw [List.mem_range] at hkr
      have hk254 : k < 254 := lt_of_lt_of_le hkr (scanMaxHosts_le_254 p)
      have h4 := congrArg (fun q : ℕ × ℕ × ℕ × ℕ => q.2.2.2) heq
      simp only at h4
      rw [scanTarget_fourth _ _ _ hk254] at h4
      simp only [natOfQuad] at hdvd
      simp only [scanMaxHosts] at hkr
      interval_cases p <;> (norm_num at hdvd hkr; omega)
    · intro hmem
      unfold scan_candidates at hmem
      rw [List.mem_map] at hmem
      obtain ⟨k, hkr, heq⟩ := hmem
      rw [List.mem_range] at hkr
      have hk254 : k < 254 := lt_of_lt_of_le hkr (scanMaxHosts_le_254 p)
      have h4 := congrArg (fun q : ℕ × ℕ × ℕ × ℕ => q.2.2.2) heq
      simp only at h4
      rw [scanTarget_fourth _ _ _ hk254] at h4
      simp only [broadcastQuad, quadOfNat, natOfQuad] at h4
      simp only [natOfQuad] at hdvd
      simp only [scanMaxHosts] at hkr
      interval_cases p <;> (norm_num at hdvd hkr h4; omega)
  · decide

/-- Witness for C1 at the aligned network 192.168.1.0 with prefix 24. -/
theorem C1_subnet_enumerator_witness :
    2 ^ (32 - 24) ∣ natOfQuad (192, 168, 1, 0) ∧
    (scan_candidates (192, 168, 1, 0) 24).length =
      min (2 ^ (32 - 24) - 2) 254 ∧
    (192, 168, 1, 0) ∉ scan_candidates (192, 168, 1, 0) 24 ∧
    broadcastQuad (192, 168, 1, 0) 24 ∉ scan_candidates (192, 168, 1, 0) 24 := by
  have h := C1_subnet_enumerator.1 (192, 168, 1, 0) 24 (by norm_num)
    (by norm_num) (by norm_num) (by norm_num) (by norm_num) (by norm_num)
    (by norm_num [natOfQuad])
  exact ⟨by norm_num [natOfQuad], h.1, h.2.2.1, h.2.2.2⟩

/-- Claim C2 (counterexample): two entry points insert into the host
registry without any dedup check.  discover_network_quick: in an
environment whose resolved local address is 127.0.0.1 (a non-"lo"-named
interface carrying the loopback address, which get_local_network_info
accepts) and whose ping answers for 127.0.0.1, the run inserts the
string-equal address 127.0.0.1 twice.  discover_arp_cache: when the
neighbour table lists the same address twice (e.g. on two interfaces), both
lines are inserted.  Either run leaves a duplicate in the registry. -/
theorem C2_registry_dedup_cex :
    (discover_network_quick quickCexEnv).isSome = true ∧
    ¬ (((discover_network_quick quickCexEnv).getD []).map
        (fun h => h.ip_address)).Nodup ∧
    ¬ ((discover_arp_cache [("10.0.0.5", true), ("10.0.0.5", true)]).map
        (fun h => h.ip_address)).Nodup := by
  have hping : ping_host_system quickCexPing "127.0.0.1" = ⟨true, 2⟩ := by
    have h0 : validate_ip_string "127.0.0.1" = true := by decide
    have h1 : quickCexPing "127.0.0.1" = some (3 / 2) := rfl
    have h2 : ((3 : ℚ) / 2 + 1 / 2) = 2 := by norm_num
    simp [ping_host_system, h0, h1, h2, c_trunc]
    norm_num
  have hq1 : quickAdd quickCexPing [] "127.0.0.1" =
      [⟨"127.0.0.1", 2, true⟩] := by
    simp [quickAdd, hping]
  have hq2 : quickAdd quickCexPing [⟨"127.0.0.1", 2, true⟩] "127.0.0.1" =
      [⟨"127.0.0.1", 2, true⟩, ⟨"127.0.0.1", 2, true⟩] := by
    simp [quickAdd, hping]
  have hnet : (parse_ip "10.0.0.0").getD (0, 0, 0, 0) = (10, 0, 0, 0) := by
    decide
  have hq : discover_network_quick quickCexEnv =
      some (quick_targets.foldl
        (quickTargetStep quickCexPing (10, 0, 0, 0) "127.0.0.1")
        [⟨"127.0.0.1", 2, true⟩, ⟨"127.0.0.1", 2, true⟩]) := by
    show discover_network_quick
        ⟨some ("127.0.0.1", "10.0.0.0", "255.255.255.0"), quickCexPing⟩ = _
    unfold discover_network_quick
    dsimp only
    rw [hnet, hq1, hq2]
  have hf : ∀ (r : List discovered_host_t) (t : ℕ),
      quickTargetStep quickCexPing (10, 0, 0, 0) "127.0.0.1" r t = r ∨
      ∃ x, quickTargetStep quickCexPing (10, 0, 0, 0) "127.0.0.1" r t =
        r ++ [x] := by
    intro r t
    unfold quickTargetStep
    split
    · exact Or.inl rfl
    · dsimp only
      split
      · exact Or.inl rfl
      · unfold quickAdd
        dsimp only
        split
        · exact Or.inr ⟨_, rfl⟩
        · exact Or.inl rfl
  obtain ⟨rest, hrest⟩ := foldl_extension
    (quickTargetStep quickCexPing (10, 0, 0, 0) "127.0.0.1") hf
    quick_targets [⟨"127.0.0.1", 2, true⟩, ⟨"127.0.0.1", 2, true⟩]
  refine ⟨?_, ?_, by decide⟩
  · rw [hq]; rfl
  · rw [hq]
    simp only [Option.getD_some]
    rw [hrest]
    intro hnd
    rw [List.map_append] at hnd
    simp only [List.map_cons, List.map_nil, List.cons_append,
      List.nil_append] at hnd
    exact (List.nodup_cons.1 hnd).1 (List.mem_cons_self _ _)

/-- Claim C2 (amended): after any sequence of host-insertion operations
within one discovery run, the host registry never contains two entries with
string-equal ip_address fields, for scan_subnet and for every discover_*
entry point except discover_network_quick and discover_arp_cache:
try_snmp_community and discover_snmp_arp (the SNMP/ARP token insert),
discover_netstat, discover_automatic, and discover_efficient's
connection/gateway steps consult the whole registry before inserting;
discover_multi_subnet and discover_custom_subnet insert only through
scan_subnet, which also consults it; and discover_network, though it also
inserts without a dedup check, probes pairwise-distinct candidate
addresses, so its registry is duplicate-free as well.  The exceptions
discover_network_quick and discover_arp_cache (whose loop
discover_efficient runs as its first step) insert with no registry check
and can produce duplicate entries (see the counterexample). -/
theorem C2_registry_dedup_amended :
    (∀ (reg : List discovered_host_t) (toks : List String),
        (reg.map (fun h => h.ip_address)).Nodup →
        ((toks.foldl snmpArpStep reg).map (fun h => h.ip_address)).Nodup) ∧
    (∀ (env : String → Option ℚ) (reg : List discovered_host_t)
        (net : ℕ × ℕ × ℕ × ℕ) (p : ℕ),
        (reg.map (fun h => h.ip_address)).Nodup →
        ((scan_subnet env reg net p).map (fun h => h.ip_address)).Nodup) ∧
    (∀ env : AutoEnv,
        (((discover_automatic env).2.1).map
          (fun h => h.ip_address)).Nodup) ∧
    (∀ conns : List String,
        ((discover_netstat conns).map (fun h => h.ip_address)).Nodup) ∧
    (∀ (router community : String) (toks : List String)
        (reg : List discovered_host_t),
        (reg.map (fun h => h.ip_address)).Nodup →
        (((discover_snmp_arp router community toks reg).2.2).map
          (fun h => h.ip_address)).Nodup) ∧
    (∀ (penv : String → Option ℚ)
        (info : Option (String × String × String))
        (reg : List discovered_host_t),
        discover_network penv info = some reg →
        (reg.map (fun h => h.ip_address)).Nodup) := by
  refine ⟨?_, ?_, ?_, discover_netstat_nodup, discover_snmp_arp_nodup,
    discover_network_nodup⟩
  · intro reg toks hn
    refine foldl_inv_mem snmpArpStep
      (fun r => (r.map (fun h => h.ip_address)).Nodup) (fun _ => True) toks
      (fun _ _ => trivial) reg hn ?_
    intro r tok _ hr
    exact snmpArpStep_nodup r tok hr
  · intro env reg net p hn
    unfold scan_subnet
    exact foldl_inv_mem (scanStep env)
      (fun r => (r.map (fun h => h.ip_address)).Nodup) (fun _ => True) _
      (fun _ _ => trivial) reg hn (fun r t _ hr => scanStep_nodup env r t hr)
  · intro env
    exact (auto_regInv env).2.1

/-- Witness for C2 (amended): re-inserting the same token through the SNMP
insert, a small scan, a netstat run with a repeated remote address, a
discover_snmp_arp run, and a full discover_network sweep of a /30 network
all leave the registry duplicate-free. -/
theorem C2_registry_dedup_amended_witness :
    (((["10.0.0.1", "10.0.0.1", "10.0.0.2"].foldl snmpArpStep []).map
        (fun h => h.ip_address)).Nodup) ∧
    (((scan_subnet (fun _ => none) [] (10, 0, 0, 0) 30).map
        (fun h => h.ip_address)).Nodup) ∧
    (((discover_netstat ["10.0.0.9", "10.0.0.9"]).map
        (fun h => h.ip_address)).Nodup) ∧
    (((discover_snmp_arp "192.168.0.1" "public" ["10.0.0.5", "10.0.0.5"]
        []).2.2.map (fun h => h.ip_address)).Nodup) ∧
    (([] : List discovered_host_t).map (fun h => h.ip_address)).Nodup := by
  refine ⟨C2_registry_dedup_amended.1 [] ["10.0.0.1", "10.0.0.1", "10.0.0.2"]
      (by simp),
    C2_registry_dedup_amended.2.1 (fun _ => none) [] (10, 0, 0, 0) 30
      (by simp),
    C2_registry_dedup_amended.2.2.2.1 ["10.0.0.9", "10.0.0.9"],
    C2_registry_dedup_amended.2.2.2.2.1 "192.168.0.1" "public"
      ["10.0.0.5", "10.0.0.5"] [] (by simp),
    C2_registry_dedup_amended.2.2.2.2.2 (fun _ => none)
      (some ("10.0.0.5", "10.0.0.0", "255.255.255.252")) [] (by decide)⟩

/-- Claim C3: in one discover_automatic run seeded from the detected
gateway, the router loop never queries the same router address twice (its
log of queried routers is duplicate-free) and the number of routers queried
never exceeds MAX_HOPS = 30. -/
theorem C3_router_walk_bounded (env : AutoEnv) (gw : String)
    (hgw : get_default_gateway env = some gw) :
    (walkLoop env MAX_HOPS (walkInit gw)).queried_log.Nodup ∧
    (walkLoop env MAX_HOPS (walkInit gw)).routers_queried ≤ MAX_HOPS ∧
    (walkLoop env MAX_HOPS (walkInit gw)).queried_log.length =
      (walkLoop env MAX_HOPS (walkInit gw)).routers_queried := by
  have hinv := walkLoop_inv env
    (fun st => st.routers_to_query.Nodup ∧
      st.queried_log = st.routers_to_query.take st.routers_queried ∧
      st.routers_queried ≤ MAX_HOPS ∧
      st.routers_queried ≤ st.routers_to_query.length)
    ?_ MAX_HOPS (walkInit gw)
    ⟨by simp [walkInit], by simp [walkInit], by simp [MAX_HOPS, walkInit],
      by simp [walkInit]⟩
  · obtain ⟨hnd, hlog, hq30, hqlen⟩ := hinv
    refine ⟨?_, hq30, ?_⟩
    · rw [hlog]
      exact List.Nodup.sublist (List.take_sublist _ _) hnd
    · rw [hlog, List.length_take]
      omega
  · intro st hlt hcap h
    obtain ⟨hnd, hlog, hq30, hqlen⟩ := h
    obtain ⟨hq1, hlog1, ext, hfr⟩ := walkStep_next env st
    refine ⟨walkStep_frontier_nodup env st hnd, ?_, by omega, ?_⟩
    · rw [hlog1, hfr, hq1, hlog]
      rw [List.take_append_of_le_length (by omega), List.take_succ]
      congr 1
      rw [List.getD_eq_getElem?_getD, List.getElem?_eq_getElem hlt]
      rfl
    · rw [hq1, hfr]
      simp only [List.length_append]
      omega

/-- Witness for C3 in the demonstration environment (two routers end up
queried, each once). -/
theorem C3_router_walk_bounded_witness :
    get_default_gateway walkDemoEnv = some "192.168.0.1" ∧
    (walkLoop walkDemoEnv MAX_HOPS (walkInit "192.168.0.1")).queried_log.Nodup ∧
    (walkLoop walkDemoEnv MAX_HOPS
        (walkInit "192.168.0.1")).routers_queried ≤ MAX_HOPS := by
  have h := C3_router_walk_bounded walkDemoEnv "192.168.0.1" (by decide)
  exact ⟨by decide, h.1, h.2.1⟩

/-- Claim C4: on well-formed router responses, the next-hop list returned by
discover_nexthop_routers contains only canonical dotted-quad addresses in
the private ranges 10/8, 172.16/12 or 192.168/16, and never 0.0.0.0, the
queried router's own address, or a public address such as 8.8.8.8; and every
address in the walker's frontier is either the seed gateway or satisfies the
same private-range property (filtered addresses never enter the frontier). -/
theorem C4_nexthop_private_filter :
    (∀ (router community : String) (toks : List String) (maxN : ℕ),
        (∀ t ∈ toks, validate_ip_string t = true → wellFormedQuadStr t) →
        ∀ s ∈ (discover_nexthop_routers router community toks maxN).2,
          s ≠ "0.0.0.0" ∧ s ≠ router ∧ s ≠ "8.8.8.8" ∧ privateAddr s) ∧
    (∀ (env : AutoEnv) (gw : String),
        get_default_gateway env = some gw →
        (∀ r c t, t ∈ env.nexthop_resp r c →
          validate_ip_string t = true → wellFormedQuadStr t) →
        ∀ s ∈ (walkLoop env MAX_HOPS (walkInit gw)).routers_to_query,
          s = gw ∨ (s ≠ "0.0.0.0" ∧ s ≠ "8.8.8.8" ∧ privateAddr s)) := by
  constructor
  · intro router community toks maxN hR s hs
    have h := nexthop_out_prop router community toks maxN hR s hs
    exact ⟨h.1, h.2.1, privateAddr_ne_8888 s h.2.2, h.2.2⟩
  · intro env gw hgw hR s hs
    have hinv := walkLoop_inv env
      (fun st => ∀ s ∈ st.routers_to_query,
        s = gw ∨ (s ≠ "0.0.0.0" ∧ privateAddr s))
      (fun st _ _ h => walkStep_frontier_prop env st gw hR h)
      MAX_HOPS (walkInit gw) (by simp [walkInit])
    rcases hinv s hs with h | ⟨h0, hp⟩
    · exact Or.inl h
    · exact Or.inr ⟨h0, privateAddr_ne_8888 s hp, hp⟩

/-- Witness for C4: a query answering with 10.0.0.7 and 8.8.8.8 keeps only
the private 10.0.0.7, which also reaches the frontier of the walk. -/
theorem C4_nexthop_private_filter_witness :
    ("10.0.0.7" ∈ (discover_nexthop_routers "192.168.0.1" "public"
        ["10.0.0.7", "8.8.8.8"] 30).2) ∧
    ("10.0.0.7" ≠ "0.0.0.0" ∧ "10.0.0.7" ≠ "192.168.0.1" ∧
      "10.0.0.7" ≠ "8.8.8.8" ∧ privateAddr "10.0.0.7") ∧
    ("10.0.0.7" = "192.168.0.1" ∨ ("10.0.0.7" ≠ "0.0.0.0" ∧
      "10.0.0.7" ≠ "8.8.8.8" ∧ privateAddr "10.0.0.7")) := by
  have hwf : ∀ t ∈ ["10.0.0.7", "8.8.8.8"],
      validate_ip_string t = true → wellFormedQuadStr t := by
    intro t ht _
    simp only [List.mem_cons, List.mem_singleton] at ht
    rcases ht with rfl | rfl | h
    · exact ⟨10, 0, 0, 7, by decide⟩
    · exact ⟨8, 8, 8, 8, by decide⟩
    · exact absurd h (by simp)
  refine ⟨by decide, ?_, ?_⟩
  · exact C4_nexthop_private_filter.1 "192.168.0.1" "public"
      ["10.0.0.7", "8.8.8.8"] 30 hwf "10.0.0.7" (by decide)
  · exact C4_nexthop_private_filter.2 walkDemoEnv "192.168.0.1" (by decide)
      (fun r c t ht => hwf t ht) "10.0.0.7" (by decide)

/-- Claim C5: an address string containing any character other than decimal
digits and dots is rejected with a failure value by the prober and by every
router query function before the branch that issues the external command is
reached, and no such string ever appears in the host registry (every
registry entry of a discover_automatic run or a scan_subnet run passes the
validator). -/
theorem C5_malformed_rejected (s : String)
    (hbad : ∃ c ∈ s.data, ¬ (('0' ≤ c ∧ c ≤ '9') ∨ c = '.')) :
    (∀ env : String → Option ℚ, ping_host_system env s = ⟨false, -1⟩) ∧
    (∀ (community : String) (toks : List String)
        (reg : List discovered_host_t),
        try_snmp_community s community toks reg = (false, reg)) ∧
    (∀ (community : String) (toks : List String) (maxN : ℕ),
        discover_nexthop_routers s community toks maxN = (false, [])) ∧
    (∀ (community : String) (toks : List String) (maxI : ℕ),
        discover_router_interfaces s community toks maxI = (false, [])) ∧
    (∀ (community : String) (toks : List String)
        (reg : List discovered_host_t),
        discover_snmp_arp s community toks reg = (false, -1, reg)) ∧
    (∀ env : AutoEnv, ∀ h ∈ (discover_automatic env).2.1,
        h.ip_address ≠ s) ∧
    (∀ (env : String → Option ℚ) (reg : List discovered_host_t)
        (net : ℕ × ℕ × ℕ × ℕ) (p : ℕ),
        (∀ h ∈ reg, validate_ip_string h.ip_address = true) →
        ∀ h ∈ scan_subnet env reg net p, h.ip_address ≠ s) := by
  have hval : validate_ip_string s = false := validate_false_of_badchar s hbad
  refine ⟨?_, ?_, ?_, ?_, ?_, ?_, ?_⟩
  · intro env
    exact ping_invalid env s hval
  · intro community toks reg
    simp [try_snmp_community, hval]
  · intro community toks maxN
    simp [discover_nexthop_routers, hval]
  · intro community toks maxI
    simp [discover_router_interfaces, hval]
  · intro community toks reg
    simp [discover_snmp_arp, hval]
  · intro env h hm heq
    have hv := (auto_regInv env).1 h hm
    rw [heq, hval] at hv
    exact Bool.false_ne_true hv
  · intro env reg net p hvreg h hm heq
    have hall : ∀ x ∈ scan_subnet env reg net p,
        validate_ip_string x.ip_address = true := by
      unfold scan_subnet
      exact foldl_inv_mem (scanStep env)
        (fun r => ∀ x ∈ r, validate_ip_string x.ip_address = true)
        (fun _ => True) _ (fun _ _ => trivial) reg hvreg
        (fun r t _ hr => scanStep_valid env r t hr)
    have hv := hall h hm
    rw [heq, hval] at hv
    exact Bool.false_ne_true hv

/-- Witness for C5 at the malformed string "1.2.3;4" (contains a
semicolon). -/
theorem C5_malformed_rejected_witness :
    (∃ c ∈ ("1.2.3;4").data, ¬ (('0' ≤ c ∧ c ≤ '9') ∨ c = '.')) ∧
    ping_host_system (fun _ => none) "1.2.3;4" = ⟨false, -1⟩ ∧
    try_snmp_community "1.2.3;4" "public" ["10.0.0.9"] [] = (false, []) ∧
    discover_nexthop_routers "1.2.3;4" "public" [] MAX_HOPS = (false, []) ∧
    discover_router_interfaces "1.2.3;4" "public" [] MAX_HOPS =
      (false, []) ∧
    discover_snmp_arp "1.2.3;4" "public" [] [] = (false, -1, []) ∧
    (⟨"192.168.0.1", 0, true⟩ : discovered_host_t).ip_address ≠ "1.2.3;4" ∧
    (⟨"10.0.0.3", 2, true⟩ : discovered_host_t).ip_address ≠ "1.2.3;4" := by
  have h := C5_malformed_rejected "1.2.3;4" (by decide)
  refine ⟨by decide, h.1 (fun _ => none), h.2.1 "public" ["10.0.0.9"] [],
    h.2.2.1 "public" [] MAX_HOPS, h.2.2.2.1 "public" [] MAX_HOPS,
    h.2.2.2.2.1 "public" [] [], ?_, ?_⟩
  · exact h.2.2.2.2.2.1 walkDemoEnv ⟨"192.168.0.1", 0, true⟩ (by decide)
  · exact h.2.2.2.2.2.2 (fun _ => none) [⟨"10.0.0.3", 2, true⟩]
      (10, 0, 0, 0) 30 (by decide) ⟨"10.0.0.3", 2, true⟩ (by decide)

end NetworkDiscovery
